import Mathlib

/-!
Shallow embedding of the GeminiFlux chat client.

The conversation state machine lives in src/App.tsx (startNewChat,
handleSendMessage and the render conditions), the submit guard in
src/components/ChatInput.tsx (handleSubmit and the send button), and the
stream adapter in src/unnamed/part_000 (sendMessageStream).

Modelling conventions:
- `Date.now()` and `new Date()` are modelled by explicit `Nat` clock
  parameters (`nowU` for the user message, `nowM` for the placeholder,
  `nowE` for an error message); message ids are `toString` of those values
  exactly as in the source.
- The vendor SDK session (`Chat`) is opaque; it is modelled by a `Session`
  token.  `createChatSession` can throw, so a reset run takes the outcome
  of that external call as an `Except` parameter.
- An endpoint response chunk carries an optional text field (`c.text` may
  be absent or empty); it is modelled as `Option String`.
- A finished stream run is described by the list of chunks the endpoint
  emitted before terminating plus an optional terminal fault; the
  `for await` loop of handleSendMessage is the fold `applyFragments`.
-/

namespace GeminiFlux

/-- Message author, the role field of src/types.ts. -/
inductive Role where
  | user
  | model
deriving DecidableEq, Repr

/-- The Message record of src/types.ts; timestamps are abstract clock values. -/
structure Message where
  id : String
  role : Role
  text : String
  timestamp : Nat
  isError : Bool
deriving DecidableEq, Repr

/-- Opaque token standing for the vendor SDK chat session handle. -/
structure Session where
  sid : Nat
deriving DecidableEq, Repr

/-- The conversation state of App: the messages list, the isStreaming flag
and the (nullable) chat session handle. -/
structure AppState where
  messages : List Message
  isStreaming : Bool
  chatSession : Option Session
deriving DecidableEq, Repr

/-- The greeting message seeded by startNewChat on success (src/App.tsx). -/
def welcomeMessage (now : Nat) : Message :=
  { id := "welcome", role := Role.model,
    text := "Hello! I\x27m Gemini. How can I help you today?",
    timestamp := now, isError := false }

/-- The error-flagged message appended by startNewChat when session creation
throws (src/App.tsx catch branch). -/
def initErrorMessage (now : Nat) : Message :=
  { id := toString now, role := Role.model,
    text := "Error: Failed to initialize chat. Please check your API key.",
    timestamp := now, isError := true }

/-- startNewChat from src/App.tsx: on success installs the fresh session and
replaces the message list with the single greeting; on failure appends an
error-flagged message to the existing list and leaves the session alone.
The outcome of the external createChatSession call is the `res` parameter. -/
def startNewChat (st : AppState) (res : Except String Session) (now : Nat) : AppState :=
  match res with
  | Except.ok session =>
      { st with chatSession := some session, messages := [welcomeMessage now] }
  | Except.error _ =>
      { st with messages := st.messages ++ [initErrorMessage now] }

/-- The user message built at the top of handleSendMessage (src/App.tsx). -/
def userMessage (text : String) (now : Nat) : Message :=
  { id := toString now, role := Role.user, text := text,
    timestamp := now, isError := false }

/-- The empty placeholder model message appended before streaming starts;
its id is `(Date.now() + 1).toString()` (src/App.tsx). -/
def placeholderMessage (now : Nat) : Message :=
  { id := toString (now + 1), role := Role.model, text := "",
    timestamp := now, isError := false }

/-- The error-flagged reply appended by the catch branch of handleSendMessage. -/
def errorReplyMessage (now : Nat) : Message :=
  { id := toString now, role := Role.model,
    text := "I encountered an error while processing your request. Please try again.",
    timestamp := now, isError := true }

/-- The setMessages updater run on each streamed chunk: map over the list and
replace the text of the message whose id matches (src/App.tsx). -/
def updateMessageText (msgs : List Message) (mid : String) (newText : String) : List Message :=
  msgs.map fun m => if m.id = mid then { m with text := newText } else m

/-- Concatenation of a fragment list in emission order. -/
def concatFrags : List String → String
  | [] => ""
  | f :: fs => f ++ concatFrags fs

/-- The `for await` loop body of handleSendMessage: `fullText += chunk` then
rewrite the placeholder text to the accumulated value, one fragment at a
time in emission order (src/App.tsx).  `acc` is the running fullText. -/
def applyFragments (msgs : List Message) (mid : String) (acc : String) :
    List String → List Message
  | [] => msgs
  | f :: fs => applyFragments (updateMessageText msgs mid (acc ++ f)) mid (acc ++ f) fs

/-- The state handleSendMessage reaches before consuming any fragment:
user message appended, empty placeholder appended, isStreaming set. -/
def sendPre (st : AppState) (text : String) (nowU nowM : Nat) : AppState :=
  { st with
    messages := st.messages ++ [userMessage text nowU, placeholderMessage nowM],
    isStreaming := true }

/-- The rest of a handleSendMessage run once streaming starts: fold the
fragments into the placeholder; on a terminal fault append the error reply
(catch branch); the finally branch clears isStreaming either way. -/
def streamPhase (st : AppState) (mid : String) (frags : List String)
    (fault : Option String) (nowE : Nat) : AppState :=
  let msgs := applyFragments st.messages mid "" frags
  match fault with
  | none => { st with messages := msgs, isStreaming := false }
  | some _ => { st with messages := msgs ++ [errorReplyMessage nowE], isStreaming := false }

/-- A whole run of handleSendMessage (src/App.tsx): the guard returns the
state untouched when there is no session or a stream is active; otherwise
the pre-stream appends happen and the stream outcome is folded in. -/
def handleSendMessage (st : AppState) (text : String) (nowU nowM : Nat)
    (frags : List String) (fault : Option String) (nowE : Nat) : AppState :=
  if st.chatSession.isNone || st.isStreaming then st
  else streamPhase (sendPre st text nowU nowM) (toString (nowM + 1)) frags fault nowE

/-- Model of the JavaScript String.prototype.trim used by ChatInput: drop
whitespace from both ends of the character list. -/
def jsTrim (s : String) : String :=
  String.mk
    (((s.data.dropWhile Char.isWhitespace).reverse.dropWhile Char.isWhitespace).reverse)

/-- handleSubmit of src/components/ChatInput.tsx: only a trimmed non-empty
text while not disabled (disabled is the isStreaming flag passed by App)
reaches onSend, and what is sent is the trimmed text. -/
def handleSubmit (st : AppState) (text : String) (nowU nowM : Nat)
    (frags : List String) (fault : Option String) (nowE : Nat) : AppState :=
  if jsTrim text ≠ "" ∧ st.isStreaming = false then
    handleSendMessage st (jsTrim text) nowU nowM frags fault nowE
  else st

/-- The render condition checking the last message author (src/App.tsx reads
`messages[messages.length - 1].role === \x27user\x27` under a nonempty guard). -/
def lastIsUser (msgs : List Message) : Bool :=
  match msgs.getLast? with
  | some m => decide (m.role = Role.user)
  | none => false

/-- The typing indicator render condition of src/App.tsx:
`isStreaming && messages.length > 0 && last.role === user`. -/
def showTypingIndicator (st : AppState) : Bool :=
  st.isStreaming && !st.messages.isEmpty && lastIsUser st.messages

/-- The disabled value App passes to ChatInput, also the textarea disabled
attribute (src/App.tsx, src/components/ChatInput.tsx). -/
def chatInputDisabled (st : AppState) : Bool :=
  st.isStreaming

/-- The send button disabled attribute of src/components/ChatInput.tsx:
`!text.trim() || disabled`. -/
def sendButtonDisabled (inputText : String) (st : AppState) : Bool :=
  decide (jsTrim inputText = "") || st.isStreaming

/-- The per-chunk step of sendMessageStream (src/unnamed/part_000): yield
`c.text` when it is present and non-empty, otherwise yield nothing. -/
def chunkYield : Option String → Option String
  | some t => if t = "" then none else some t
  | none => none

/-- All fragments sendMessageStream yields for a list of endpoint chunks. -/
def adapterYields (chunks : List (Option String)) : List String :=
  chunks.filterMap chunkYield

/-- Spec wording for comparison with adapterYields: the text of exactly those
chunks that carry non-empty text, in the order received. -/
def specNonEmptyTexts (chunks : List (Option String)) : List String :=
  (chunks.filterMap id).filter fun t => decide (t ≠ "")

/-- A whole sendMessageStream run: the endpoint emits `chunks` and then
either completes or raises; the adapter rethrows the fault unchanged after
yielding what the chunks produced (src/unnamed/part_000 try/catch). -/
def runAdapter : List (Option String) → Option String → List String × Option String
  | [], fault => ([], fault)
  | c :: rest, fault =>
      let r := runAdapter rest fault
      match chunkYield c with
      | some t => (t :: r.1, r.2)
      | none => r

/-- A concrete idle state with a live session, used to instantiate theorems. -/
def idleState : AppState :=
  { messages := [], isStreaming := false, chatSession := some { sid := 0 } }

theorem updateMessageText_append (xs ys : List Message) (mid t : String) :
    updateMessageText (xs ++ ys) mid t =
      updateMessageText xs mid t ++ updateMessageText ys mid t := by
  simp [updateMessageText]

theorem updateMessageText_fresh (msgs : List Message) (mid t : String)
    (h : ∀ m ∈ msgs, m.id ≠ mid) :
    updateMessageText msgs mid t = msgs := by
  induction msgs with
  | nil => rfl
  | cons m ms ih =>
      have hm : m.id ≠ mid := h m (List.mem_cons_self m ms)
      have hms : ∀ x ∈ ms, x.id ≠ mid := fun x hx => h x (List.mem_cons_of_mem m hx)
      simp [updateMessageText, hm] at ih ⊢
      exact ih hms

theorem updateMessageText_single (ph : Message) (mid t : String) (hid : ph.id = mid) :
    updateMessageText [ph] mid t = [{ ph with text := t }] := by
  simp [updateMessageText, hid]

theorem updateMessageText_twice (msgs : List Message) (mid t₁ t₂ : String) :
    updateMessageText (updateMessageText msgs mid t₁) mid t₂ =
      updateMessageText msgs mid t₂ := by
  unfold updateMessageText
  rw [List.map_map]
  refine List.map_congr_left fun m _ => ?_
  by_cases hm : m.id = mid <;> simp [hm]

theorem applyFragments_from_update (msgs : List Message) (mid : String)
    (fr : List String) :
    ∀ acc : String,
      applyFragments (updateMessageText msgs mid acc) mid acc fr =
        updateMessageText msgs mid (acc ++ concatFrags fr) := by
  induction fr with
  | nil => intro acc; simp [applyFragments, concatFrags]
  | cons f fs ih =>
      intro acc
      show applyFragments
          (updateMessageText (updateMessageText msgs mid acc) mid (acc ++ f))
          mid (acc ++ f) fs = _
      rw [updateMessageText_twice, ih (acc ++ f), concatFrags,
        ← String.append_assoc]

theorem eta_of_text_empty (ph : Message) (h : ph.text = "") :
    ph = { ph with text := "" } := by
  cases ph
  simp_all

theorem applyFragments_placeholder (msgs : List Message) (ph : Message)
    (mid : String) (fr : List String) (hid : ph.id = mid) (htext : ph.text = "")
    (hfresh : ∀ m ∈ msgs, m.id ≠ mid) :
    applyFragments (msgs ++ [ph]) mid "" fr =
      msgs ++ [{ ph with text := concatFrags fr }] := by
  have h0 : updateMessageText (msgs ++ [ph]) mid "" = msgs ++ [ph] := by
    rw [updateMessageText_append, updateMessageText_fresh msgs mid "" hfresh,
      updateMessageText_single ph mid "" hid, ← eta_of_text_empty ph htext]
  calc applyFragments (msgs ++ [ph]) mid "" fr
      = applyFragments (updateMessageText (msgs ++ [ph]) mid "") mid "" fr := by
        rw [h0]
    _ = updateMessageText (msgs ++ [ph]) mid ("" ++ concatFrags fr) :=
        applyFragments_from_update (msgs ++ [ph]) mid fr ""
    _ = msgs ++ [{ ph with text := concatFrags fr }] := by
        rw [show ("" ++ concatFrags fr : String) = concatFrags fr
            from String.empty_append _,
          updateMessageText_append, updateMessageText_fresh msgs mid _ hfresh,
          updateMessageText_single ph mid _ hid]

/-- C1 counterexample: from a prior state holding one message with streaming
active, a reset whose session creation fails does not leave exactly one
message (it leaves two) and does not leave isStreaming false. -/
theorem reset_counterexample :
    ¬ (((startNewChat
          { messages := [welcomeMessage 0], isStreaming := true, chatSession := none }
          (Except.error "boom") 5).messages.length = 1)
        ∧ (startNewChat
          { messages := [welcomeMessage 0], isStreaming := true, chatSession := none }
          (Except.error "boom") 5).isStreaming = false) := by
  decide

/-- C1 (amended): after reset, on successful session creation the message
list is exactly the greeting and the new session is installed; on failure an
error-flagged model message is appended to the prior list and the session
handle is unchanged; isStreaming is not modified in either case. -/
theorem reset_result (st : AppState) (s : Session) (e : String) (now : Nat) :
    (startNewChat st (Except.ok s) now).messages = [welcomeMessage now]
    ∧ (startNewChat st (Except.ok s) now).chatSession = some s
    ∧ (startNewChat st (Except.ok s) now).isStreaming = st.isStreaming
    ∧ (startNewChat st (Except.error e) now).messages =
        st.messages ++ [initErrorMessage now]
    ∧ (initErrorMessage now).role = Role.model
    ∧ (initErrorMessage now).isError = true
    ∧ (startNewChat st (Except.error e) now).isStreaming = st.isStreaming
    ∧ (startNewChat st (Except.error e) now).chatSession = st.chatSession :=
  ⟨rfl, rfl, rfl, rfl, rfl, rfl, rfl, rfl⟩

/-- C2: submitting while a stream is active or with empty or whitespace-only
text leaves the conversation state completely unchanged. -/
theorem send_noop_when_streaming_or_blank (st : AppState) (text : String)
    (nowU nowM nowE : Nat) (frags : List String) (fault : Option String)
    (h : st.isStreaming = true ∨ jsTrim text = "") :
    handleSubmit st text nowU nowM frags fault nowE = st := by
  unfold handleSubmit
  rcases h with h | h
  · rw [if_neg]
    simp [h]
  · rw [if_neg]
    simp [h]

/-- C2 witness at a streaming state and at a whitespace-only text. -/
theorem send_noop_when_streaming_or_blank_witness :
    handleSubmit { messages := [], isStreaming := true, chatSession := none }
        "hi" 0 1 ["x"] none 2
      = { messages := [], isStreaming := true, chatSession := none }
    ∧ handleSubmit idleState "   " 0 1 ["x"] none 2 = idleState :=
  ⟨send_noop_when_streaming_or_blank
      { messages := [], isStreaming := true, chatSession := none }
      "hi" 0 1 2 ["x"] none (Or.inl rfl),
   send_noop_when_streaming_or_blank idleState "   " 0 1 2 ["x"] none
      (Or.inr (by decide))⟩

/-- C3: with a session present and no active stream, a send of non-empty
text first appends exactly a user message carrying the input text and an
empty model placeholder, sets isStreaming, and only then processes the
stream outcome from that pre-state. -/
theorem send_pre_stream (st : AppState) (text : String) (nowU nowM nowE : Nat)
    (frags : List String) (fault : Option String)
    (hsess : st.chatSession.isNone = false) (hstr : st.isStreaming = false)
    (htext : text ≠ "") :
    (sendPre st text nowU nowM).messages =
      st.messages ++ [userMessage text nowU, placeholderMessage nowM]
    ∧ (userMessage text nowU).role = Role.user
    ∧ (userMessage text nowU).text = text
    ∧ (placeholderMessage nowM).role = Role.model
    ∧ (placeholderMessage nowM).text = ""
    ∧ (sendPre st text nowU nowM).isStreaming = true
    ∧ handleSendMessage st text nowU nowM frags fault nowE =
        streamPhase (sendPre st text nowU nowM) (toString (nowM + 1))
          frags fault nowE := by
  refine ⟨rfl, rfl, rfl, rfl, rfl, rfl, ?_⟩
  unfold handleSendMessage
  rw [hsess, hstr]
  rfl

/-- C3 witness at the idle state and the text hi. -/
theorem send_pre_stream_witness :
    (sendPre idleState "hi" 3 4).messages =
      idleState.messages ++ [userMessage "hi" 3, placeholderMessage 4]
    ∧ (userMessage "hi" 3).role = Role.user
    ∧ (userMessage "hi" 3).text = "hi"
    ∧ (placeholderMessage 4).role = Role.model
    ∧ (placeholderMessage 4).text = ""
    ∧ (sendPre idleState "hi" 3 4).isStreaming = true
    ∧ handleSendMessage idleState "hi" 3 4 ["He"] none 9 =
        streamPhase (sendPre idleState "hi" 3 4) (toString (4 + 1))
          ["He"] none 9 :=
  send_pre_stream idleState "hi" 3 4 9 ["He"] none rfl rfl (by decide)

theorem sendPre_messages_assoc (st : AppState) (text : String) (nowU nowM : Nat) :
    (sendPre st text nowU nowM).messages =
      (st.messages ++ [userMessage text nowU]) ++ [placeholderMessage nowM] := by
  simp [sendPre]

theorem sendPre_fresh (st : AppState) (text : String) (nowU nowM : Nat)
    (hfresh : ∀ m ∈ st.messages, m.id ≠ toString (nowM + 1))
    (hu : toString nowU ≠ toString (nowM + 1)) :
    ∀ m ∈ st.messages ++ [userMessage text nowU], m.id ≠ toString (nowM + 1) := by
  intro m hm
  rcases List.mem_append.mp hm with h | h
  · exact hfresh m h
  · have hme : m = userMessage text nowU := List.mem_singleton.mp h
    rw [hme]
    exact hu

theorem sendPre_applyFragments (st : AppState) (text : String) (nowU nowM : Nat)
    (fr : List String)
    (hfresh : ∀ m ∈ st.messages, m.id ≠ toString (nowM + 1))
    (hu : toString nowU ≠ toString (nowM + 1)) :
    applyFragments (sendPre st text nowU nowM).messages (toString (nowM + 1)) "" fr
      = st.messages ++ [userMessage text nowU,
          { placeholderMessage nowM with text := concatFrags fr }] := by
  have h := applyFragments_placeholder (st.messages ++ [userMessage text nowU])
    (placeholderMessage nowM) (toString (nowM + 1)) fr rfl rfl
    (sendPre_fresh st text nowU nowM hfresh hu)
  rw [sendPre_messages_assoc, h]
  simp

/-- C4: with fresh message ids, every prefix of the fragment stream leaves
the placeholder holding exactly the concatenation of that prefix, and a
completed stream leaves it holding the concatenation of all fragments in
emission order. -/
theorem stream_accumulates (st : AppState) (text : String) (nowU nowM nowE : Nat)
    (frags : List String)
    (hsess : st.chatSession.isNone = false) (hstr : st.isStreaming = false)
    (hfresh : ∀ m ∈ st.messages, m.id ≠ toString (nowM + 1))
    (hu : toString nowU ≠ toString (nowM + 1)) :
    (∀ i : Nat,
      applyFragments (sendPre st text nowU nowM).messages (toString (nowM + 1)) ""
          (frags.take i)
        = st.messages ++ [userMessage text nowU,
            { placeholderMessage nowM with text := concatFrags (frags.take i) }])
    ∧ (handleSendMessage st text nowU nowM frags none nowE).messages
        = st.messages ++ [userMessage text nowU,
            { placeholderMessage nowM with text := concatFrags frags }] := by
  constructor
  · intro i
    exact sendPre_applyFragments st text nowU nowM (frags.take i) hfresh hu
  · have hrun : handleSendMessage st text nowU nowM frags none nowE
        = streamPhase (sendPre st text nowU nowM) (toString (nowM + 1)) frags none nowE := by
      unfold handleSendMessage
      rw [hsess, hstr]
      rfl
    rw [hrun]
    simpa [streamPhase] using sendPre_applyFragments st text nowU nowM frags hfresh hu

/-- C4 witness: for the stream [Hel, lo] from the idle state the completed
placeholder text is the concatenation Hello, and after the first fragment
alone it is Hel. -/
theorem stream_accumulates_witness :
    (handleSendMessage idleState "hi" 3 4 ["Hel", "lo"] none 9).messages
      = idleState.messages ++ [userMessage "hi" 3,
          { placeholderMessage 4 with text := concatFrags ["Hel", "lo"] }]
    ∧ applyFragments (sendPre idleState "hi" 3 4).messages (toString (4 + 1)) ""
          (["Hel", "lo"].take 1)
        = idleState.messages ++ [userMessage "hi" 3,
            { placeholderMessage 4 with text := concatFrags (["Hel", "lo"].take 1) }]
    ∧ concatFrags ["Hel", "lo"] = "Hello"
    ∧ concatFrags (["Hel", "lo"].take 1) = "Hel" :=
  ⟨(stream_accumulates idleState "hi" 3 4 9 ["Hel", "lo"] rfl rfl
      (by simp [idleState]) (by decide)).2,
   (stream_accumulates idleState "hi" 3 4 9 ["Hel", "lo"] rfl rfl
      (by simp [idleState]) (by decide)).1 1,
   by decide, by decide⟩

/-- C5: when the stream fails after a prefix of fragments, the placeholder
keeps exactly the concatenation of that prefix, exactly one error-flagged
model message is appended after it, and isStreaming ends false. -/
theorem stream_failure_keeps_prefix (st : AppState) (text err : String)
    (nowU nowM nowE : Nat) (frags : List String)
    (hsess : st.chatSession.isNone = false) (hstr : st.isStreaming = false)
    (hfresh : ∀ m ∈ st.messages, m.id ≠ toString (nowM + 1))
    (hu : toString nowU ≠ toString (nowM + 1)) :
    (handleSendMessage st text nowU nowM frags (some err) nowE).messages
      = st.messages ++ [userMessage text nowU,
          { placeholderMessage nowM with text := concatFrags frags },
          errorReplyMessage nowE]
    ∧ (errorReplyMessage nowE).role = Role.model
    ∧ (errorReplyMessage nowE).isError = true
    ∧ (handleSendMessage st text nowU nowM frags (some err) nowE).isStreaming = false := by
  have hrun : handleSendMessage st text nowU nowM frags (some err) nowE
      = streamPhase (sendPre st text nowU nowM) (toString (nowM + 1)) frags
          (some err) nowE := by
    unfold handleSendMessage
    rw [hsess, hstr]
    rfl
  refine ⟨?_, rfl, rfl, ?_⟩
  · rw [hrun]
    have h := sendPre_applyFragments st text nowU nowM frags hfresh hu
    simp [streamPhase, h]
  · rw [hrun]
    simp [streamPhase]

/-- C5 witness: a stream that fails after the single fragment Hel leaves the
placeholder holding Hel followed by one error-flagged reply, not streaming. -/
theorem stream_failure_keeps_prefix_witness :
    (handleSendMessage idleState "hi" 3 4 ["Hel"] (some "network") 9).messages
      = idleState.messages ++ [userMessage "hi" 3,
          { placeholderMessage 4 with text := concatFrags ["Hel"] },
          errorReplyMessage 9]
    ∧ (errorReplyMessage 9).role = Role.model
    ∧ (errorReplyMessage 9).isError = true
    ∧ (handleSendMessage idleState "hi" 3 4 ["Hel"] (some "network") 9).isStreaming
        = false :=
  stream_failure_keeps_prefix idleState "hi" "network" 3 4 9 ["Hel"] rfl rfl
    (by simp [idleState]) (by decide)

/-- C6: the adapter yields exactly the text of the chunks that carry
non-empty text, in the order received, and every yielded fragment is a
non-empty string. -/
theorem adapter_yields_nonempty_texts (chunks : List (Option String)) :
    adapterYields chunks = specNonEmptyTexts chunks
    ∧ ∀ t ∈ adapterYields chunks, t ≠ "" := by
  constructor
  · induction chunks with
    | nil => rfl
    | cons c rest ih =>
        cases c with
        | none => simpa [adapterYields, specNonEmptyTexts, chunkYield] using ih
        | some t =>
            by_cases ht : t = ""
            · subst ht
              simpa [adapterYields, specNonEmptyTexts, chunkYield] using ih
            · have h1 : adapterYields (some t :: rest) = t :: adapterYields rest := by
                simp [adapterYields, List.filterMap_cons, chunkYield, ht]
              have h2 : specNonEmptyTexts (some t :: rest) =
                  t :: specNonEmptyTexts rest := by
                simp [specNonEmptyTexts, List.filterMap_cons, List.filter_cons, ht]
              rw [h1, h2, ih]
  · intro t htmem
    rcases List.mem_filterMap.mp htmem with ⟨c, _, hy⟩
    cases c with
    | none => simp [chunkYield] at hy
    | some s =>
        by_cases hs : s = ""
        · simp [chunkYield, hs] at hy
        · rw [chunkYield, if_neg hs, Option.some_inj] at hy
          rw [← hy]
          exact hs

/-- C7: a fault raised by the endpoint after emitting some chunks is
propagated by the adapter as the single terminal failure of the run; the
fragments of the run are exactly those derived from the emitted chunks
(nothing follows the failure), and no chunk is processed more than once
(no internal retry), so at most one fragment exists per endpoint chunk. -/
theorem adapter_propagates_failure (chunks : List (Option String)) (e : String) :
    runAdapter chunks (some e) = (adapterYields chunks, some e)
    ∧ (adapterYields chunks).length ≤ chunks.length := by
  constructor
  · induction chunks with
    | nil => rfl
    | cons c rest ih =>
        cases hcy : chunkYield c with
        | none =>
            have h1 : runAdapter (c :: rest) (some e) = runAdapter rest (some e) := by
              simp [runAdapter, hcy]
            have h2 : adapterYields (c :: rest) = adapterYields rest := by
              simp [adapterYields, List.filterMap_cons, hcy]
            rw [h1, h2, ih]
        | some t =>
            have h1 : runAdapter (c :: rest) (some e) =
                (t :: (runAdapter rest (some e)).1, (runAdapter rest (some e)).2) := by
              simp [runAdapter, hcy]
            have h2 : adapterYields (c :: rest) = t :: adapterYields rest := by
              simp [adapterYields, List.filterMap_cons, hcy]
            rw [h1, h2, ih]
  · exact List.length_filterMap_le _ _

/-- C8 counterexample: with a blank input while no stream is active the send
button is disabled, so the send control is not disabled exactly while
isStreaming is true. -/
theorem render_conditions_counterexample :
    ¬ (sendButtonDisabled ""
          { messages := [], isStreaming := false, chatSession := none }
        = ({ messages := [], isStreaming := false,
             chatSession := none } : AppState).isStreaming) := by
  decide

/-- C8 (amended): the typing indicator is rendered iff isStreaming is true
and the last message is user-authored; the disabled value App hands to
ChatInput (the textarea) equals isStreaming; the send button is disabled
exactly when the trimmed input is empty or isStreaming is true. -/
theorem render_conditions (st : AppState) (inputText : String) :
    (showTypingIndicator st = true ↔
      st.isStreaming = true ∧
        ∃ m, st.messages.getLast? = some m ∧ m.role = Role.user)
    ∧ chatInputDisabled st = st.isStreaming
    ∧ (sendButtonDisabled inputText st = true ↔
        (jsTrim inputText = "" ∨ st.isStreaming = true)) := by
  refine ⟨?_, rfl, ?_⟩
  · unfold showTypingIndicator lastIsUser
    cases hm : st.messages.getLast? with
    | none => simp
    | some m =>
        have hne : st.messages ≠ [] := by
          intro h
          rw [h] at hm
          simp at hm
        have hie : st.messages.isEmpty = false := by
          cases he : st.messages.isEmpty
          · rfl
          · exact absurd (List.isEmpty_iff.mp he) hne
        simp [hie]
  · unfold sendButtonDisabled
    simp

/-- C9: a fragment update rewrites only the text of the placeholder whose id
matches; its id, role, timestamp and isError are kept, and every other
message in the list is left entirely unchanged. -/
theorem fragment_update_frame (msgs : List Message) (ph : Message) (mid t : String)
    (hid : ph.id = mid) (hfresh : ∀ m ∈ msgs, m.id ≠ mid) :
    updateMessageText (msgs ++ [ph]) mid t = msgs ++ [{ ph with text := t }]
    ∧ ({ ph with text := t }).id = ph.id
    ∧ ({ ph with text := t }).role = ph.role
    ∧ ({ ph with text := t }).timestamp = ph.timestamp
    ∧ ({ ph with text := t }).isError = ph.isError := by
  refine ⟨?_, rfl, rfl, rfl, rfl⟩
  rw [updateMessageText_append, updateMessageText_fresh msgs mid t hfresh,
    updateMessageText_single ph mid t hid]

/-- C9 witness at a concrete list holding the greeting and a placeholder. -/
theorem fragment_update_frame_witness :
    updateMessageText ([welcomeMessage 0] ++ [placeholderMessage 4]) "5" "Hel"
      = [welcomeMessage 0] ++ [{ placeholderMessage 4 with text := "Hel" }]
    ∧ ({ placeholderMessage 4 with text := "Hel" }).id = (placeholderMessage 4).id
    ∧ ({ placeholderMessage 4 with text := "Hel" }).role = (placeholderMessage 4).role
    ∧ ({ placeholderMessage 4 with text := "Hel" }).timestamp
        = (placeholderMessage 4).timestamp
    ∧ ({ placeholderMessage 4 with text := "Hel" }).isError
        = (placeholderMessage 4).isError :=
  fragment_update_frame [welcomeMessage 0] (placeholderMessage 4) "5" "Hel"
    (by decide) (by decide)

/-- C10: when no chat session exists, a send run returns the state
untouched for every text and every stream outcome: nothing is appended and
no error is surfaced. -/
theorem send_noop_without_session (st : AppState) (text : String)
    (nowU nowM nowE : Nat) (frags : List String) (fault : Option String)
    (h : st.chatSession = none) :
    handleSendMessage st text nowU nowM frags fault nowE = st := by
  unfold handleSendMessage
  rw [h]
  rfl

/-- C10 witness at a sessionless state. -/
theorem send_noop_without_session_witness :
    handleSendMessage
        { messages := [welcomeMessage 0], isStreaming := false, chatSession := none }
        "hi" 3 4 ["He"] none 9
      = { messages := [welcomeMessage 0], isStreaming := false, chatSession := none } :=
  send_noop_without_session
    { messages := [welcomeMessage 0], isStreaming := false, chatSession := none }
    "hi" 3 4 9 ["He"] none rfl

end GeminiFlux
